import Mathlib

/-!
Verification of the DB6502 emulator core (adapted from the HBC-56 emulator):
the address-bus arbitration (`hbc56MemRead` / `hbc56MemWrite`), the interrupt
aggregator (`hbc56Interrupt`), the catch-up scheduler batch computation
(`doTick`), the paste flow-control injector, the 65C51 ACIA device model
(registers, circular receive buffer, terminal output buffer), and ROM loading
(`hbc56LoadRom`).  Each definition is a shallow embedding of the corresponding
C function.
-/

set_option maxRecDepth 8192

namespace DB6502

/-! ## Address bus / device chain (db6502emu.cpp: hbc56MemRead / hbc56MemWrite)

A device is its read and write capability: `read addr = some v` models the
device's `readFn` returning 1 (claimed) having stored `v` into `*val`;
`none` models a return of 0 (not claimed).  `write addr val = true` models the
`writeFn` returning 1 (claimed). -/

structure BusDevice where
  read : Nat → Option Nat
  write : Nat → Nat → Bool

/-- `hbc56MemRead`: `val` starts at 0x00; the loop probes each device in
order and breaks on the first claim, returning the claimed value. -/
def hbc56MemRead : List BusDevice → Nat → Nat
  | [], _ => 0
  | d :: rest, addr =>
    match d.read addr with
    | some v => v
    | none => hbc56MemRead rest addr

/-- `hbc56MemWrite`: probes each device in order, stopping at the first
claimed write.  The result is the index of the device that claimed the
write (`none` when no device claims), which records where the scan stopped. -/
def hbc56MemWriteIdx : List BusDevice → Nat → Nat → Option Nat
  | [], _, _ => none
  | d :: rest, addr, val =>
    if d.write addr val then some 0
    else (hbc56MemWriteIdx rest addr val).map (· + 1)

/-! ## Interrupt aggregator (db6502emu.cpp: hbc56Interrupt, MAX_IRQS = 5) -/

inductive IrqSignal where
  | release
  | raise
  | trigger
deriving DecidableEq, Repr

/-- A source is active when it is RAISE or TRIGGER: either forces the
aggregate scan's `signal` variable to RAISE. -/
def irqActiveSig (s : IrqSignal) : Bool :=
  match s with
  | .release => false
  | .raise => true
  | .trigger => true

/-- TRIGGER entries are reset to RELEASE by the aggregate scan. -/
def clearTrigger (s : IrqSignal) : IrqSignal :=
  match s with
  | .trigger => .release
  | s => s

/-- The `for (i = 0; i < MAX_IRQS; ++i)` scan of `hbc56Interrupt`:
carries the loop's `signal` accumulator, sets it to RAISE on a RAISE entry,
and on a TRIGGER entry resets that entry to RELEASE while setting the
accumulator to RAISE.  Returns the updated table and the final signal. -/
def irqScan : List IrqSignal → IrqSignal → List IrqSignal × IrqSignal
  | [], acc => ([], acc)
  | x :: xs, acc =>
    match x with
    | .raise =>
      let r := irqScan xs .raise
      (.raise :: r.1, r.2)
    | .trigger =>
      let r := irqScan xs .raise
      (.release :: r.1, r.2)
    | .release =>
      let r := irqScan xs acc
      (.release :: r.1, r.2)

/-- `hbc56Interrupt(irq, signal)`: ignores irq 0 or irq > MAX_IRQS, otherwise
stores the signal at index irq-1, rescans the table and delivers the
aggregate to the CPU.  Returns the updated table and `some delivered`
(`none` when the source index was ignored and nothing was delivered). -/
def hbc56Interrupt (irqs : List IrqSignal) (irq : Nat) (sig : IrqSignal) :
    List IrqSignal × Option IrqSignal :=
  if irq = 0 ∨ irq > 5 then (irqs, none)
  else
    let irqs1 := irqs.set (irq - 1) sig
    let r := irqScan irqs1 .release
    (r.1, some r.2)

theorem irqScan_eq (l : List IrqSignal) (acc : IrqSignal) :
    irqScan l acc =
      (l.map clearTrigger, if l.any irqActiveSig then .raise else acc) := by
  induction l generalizing acc with
  | nil => simp [irqScan]
  | cons x xs ih =>
    cases x <;> simp [irqScan, ih, clearTrigger, irqActiveSig]

theorem hbc56MemRead_first (devs : List BusDevice) (addr : Nat) (i : Nat)
    (v : Nat) (hi : i < devs.length)
    (hc : (devs.get ⟨i, hi⟩).read addr = some v)
    (hp : ∀ j (hj : j < i), (devs.get ⟨j, Nat.lt_trans hj hi⟩).read addr = none) :
    hbc56MemRead devs addr = v := by
  induction devs generalizing i with
  | nil => exact absurd hi (Nat.not_lt_zero i)
  | cons d rest ih =>
    cases i with
    | zero =>
      simp only [List.get] at hc
      simp [hbc56MemRead, hc]
    | succ n =>
      have hd : d.read addr = none := hp 0 (Nat.succ_pos n)
      simp only [List.get] at hc
      simp only [hbc56MemRead, hd]
      exact ih n (Nat.lt_of_succ_lt_succ hi) hc
        (fun j hj => hp (j + 1) (Nat.succ_lt_succ hj))

theorem hbc56MemWriteIdx_first (devs : List BusDevice) (addr val : Nat)
    (i : Nat) (hi : i < devs.length)
    (hc : (devs.get ⟨i, hi⟩).write addr val = true)
    (hp : ∀ j (hj : j < i),
      (devs.get ⟨j, Nat.lt_trans hj hi⟩).write addr val = false) :
    hbc56MemWriteIdx devs addr val = some i := by
  induction devs generalizing i with
  | nil => exact absurd hi (Nat.not_lt_zero i)
  | cons d rest ih =>
    cases i with
    | zero =>
      simp only [List.get] at hc
      simp [hbc56MemWriteIdx, hc]
    | succ n =>
      have hd : d.write addr val = false := hp 0 (Nat.succ_pos n)
      simp only [List.get] at hc
      simp only [hbc56MemWriteIdx, hd, Bool.false_eq_true, if_false]
      rw [ih n (Nat.lt_of_succ_lt_succ hi) hc
        (fun j hj => hp (j + 1) (Nat.succ_lt_succ hj))]
      rfl

theorem take_append_get (devs : List BusDevice) (rest : List BusDevice)
    (i j : Nat) (hi : i < devs.length) (hj : j ≤ i) :
    ∃ h : j < (devs.take (i + 1) ++ rest).length,
      (devs.take (i + 1) ++ rest).get ⟨j, h⟩ =
        devs.get ⟨j, Nat.lt_of_le_of_lt hj hi⟩ := by
  have hlen : j < (devs.take (i + 1)).length := by
    rw [List.length_take]
    exact lt_min (Nat.lt_succ_of_le hj) (Nat.lt_of_le_of_lt hj hi)
  refine ⟨Nat.lt_of_lt_of_le hlen (by simp), ?_⟩
  rw [List.get_eq_getElem, List.get_eq_getElem,
    List.getElem_append_left hlen, List.getElem_take]

/-- C1: `hbc56MemRead` / `hbc56MemWrite` probe the device chain in
registration order from index 0; the first device claiming the address
terminates the scan: its value is returned for reads, and no later device is
consulted (the result is unchanged under any replacement of the chain past
the claimant), regardless of overlapping ranges of later devices. -/
theorem bus_probe_order (devs : List BusDevice) (addr : Nat) (i v : Nat)
    (hi : i < devs.length)
    (hc : (devs.get ⟨i, hi⟩).read addr = some v)
    (hp : ∀ j (hj : j < i), (devs.get ⟨j, Nat.lt_trans hj hi⟩).read addr = none) :
    hbc56MemRead devs addr = v ∧
    (∀ rest, hbc56MemRead (devs.take (i + 1) ++ rest) addr = v) ∧
    (∀ val, (devs.get ⟨i, hi⟩).write addr val = true →
      (∀ j (hj : j < i),
        (devs.get ⟨j, Nat.lt_trans hj hi⟩).write addr val = false) →
      hbc56MemWriteIdx devs addr val = some i ∧
      ∀ rest, hbc56MemWriteIdx (devs.take (i + 1) ++ rest) addr val = some i) := by
  refine ⟨hbc56MemRead_first devs addr i v hi hc hp, ?_, ?_⟩
  · intro rest
    obtain ⟨h, he⟩ := take_append_get devs rest i i hi le_rfl
    refine hbc56MemRead_first _ addr i v h (by rw [he]; exact hc) ?_
    intro j hj
    obtain ⟨h2, he2⟩ := take_append_get devs rest i j hi (Nat.le_of_lt hj)
    have hx := hp j hj
    rw [← he2] at hx
    exact hx
  · intro val hw hwp
    refine ⟨hbc56MemWriteIdx_first devs addr val i hi hw hwp, ?_⟩
    intro rest
    obtain ⟨h, he⟩ := take_append_get devs rest i i hi le_rfl
    refine hbc56MemWriteIdx_first _ addr val i h (by rw [he]; exact hw) ?_
    intro j hj
    obtain ⟨h2, he2⟩ := take_append_get devs rest i j hi (Nat.le_of_lt hj)
    have hx := hwp j hj
    rw [← he2] at hx
    exact hx

def wdevA : BusDevice := ⟨fun _ => none, fun _ _ => false⟩

def wdevB : BusDevice := ⟨fun _ => some 42, fun _ _ => true⟩

def wdevC : BusDevice := ⟨fun _ => some 7, fun _ _ => true⟩

theorem bus_probe_order_witness :
    hbc56MemRead [wdevA, wdevB, wdevC] 9 = 42 ∧
    hbc56MemRead [wdevA, wdevB] 9 = 42 ∧
    hbc56MemWriteIdx [wdevA, wdevB, wdevC] 9 3 = some 1 := by
  have h := bus_probe_order [wdevA, wdevB, wdevC] 9 1 42 (by norm_num)
    rfl (by intro j hj; interval_cases j; rfl)
  refine ⟨h.1, ?_, (h.2.2 3 rfl (by intro j hj; interval_cases j; rfl)).1⟩
  have h2 := h.2.1 []
  simpa using h2

/-! ## Real-time catch-up scheduler (db6502emu.cpp: doTick) -/

def HBC56_CLOCK_FREQ : Nat := 4000000

/-- `deltaTime = 0.0001` (100 microseconds per batch). -/
def doTickDeltaTime : ℚ := 1 / 10000

/-- `elapsed` is capped at 0.05 (50 milliseconds). -/
def doTickElapsedCap : ℚ := 1 / 20

/-- `(uint32_t)(HBC56_CLOCK_FREQ * deltaTime)` = 400 cycles per batch. -/
def deltaClockTicks : Nat := 400

/-- The batch count computed by `doTick` for a given elapsed wall-clock time
in seconds (rational idealization of the double arithmetic): 0 when
`elapsed <= 0` (early return), otherwise clamp to the cap, truncate
`elapsed / deltaTime` (the `(int)` cast truncates toward zero, which equals
the floor here since the quotient is positive), with a floor of 1 batch. -/
def doTickBatches (elapsed : ℚ) : Nat :=
  if elapsed ≤ 0 then 0
  else
    let e := if elapsed > doTickElapsedCap then doTickElapsedCap else elapsed
    let b := (⌊e / doTickDeltaTime⌋).toNat
    if b < 1 then 1 else b

/-! ## Paste / flow-control injector (db6502emu.cpp: doTick batch body)

One cycle batch's injection attempt: with the ACIA device present, a byte is
delivered only when the paste queue is non-empty, the ACIA receive buffer is
empty, and the BIOS buffer occupancy — the uint8 difference of the write
cursor read from $0001 and the read cursor read from $0000 — is below 192.
Returns the remaining queue and the delivered byte (if any). -/
def pasteInjectStep (queue : List Nat) (rxEmpty : Bool) (wrPtr rdPtr : Nat) :
    List Nat × Option Nat :=
  if queue ≠ [] ∧ rxEmpty = true then
    let bufUsed := (wrPtr % 256 + 256 - rdPtr % 256) % 256
    if bufUsed < 192 then (queue.tail, queue.head?)
    else (queue, none)
  else (queue, none)

/-- C4: per cycle batch at most one byte is delivered (the queue loses at
most its head), and a delivery happens only when the receive buffer is empty
and the occupancy `(wrPtr - rdPtr)` as uint8 is below 192; at occupancy 200
nothing is delivered even with a non-empty queue and an empty receive
buffer. -/
theorem paste_injector_flow_control (queue : List Nat) (rxEmpty : Bool)
    (wrPtr rdPtr : Nat) :
    ((pasteInjectStep queue rxEmpty wrPtr rdPtr = (queue, none)) ∨
      (pasteInjectStep queue rxEmpty wrPtr rdPtr = (queue.tail, queue.head?) ∧
        rxEmpty = true ∧ queue ≠ [] ∧
        (wrPtr % 256 + 256 - rdPtr % 256) % 256 < 192)) ∧
    ((wrPtr % 256 + 256 - rdPtr % 256) % 256 = 200 →
      pasteInjectStep queue rxEmpty wrPtr rdPtr = (queue, none)) := by
  constructor
  · by_cases h1 : queue ≠ [] ∧ rxEmpty = true
    · by_cases h2 : (wrPtr % 256 + 256 - rdPtr % 256) % 256 < 192
      · exact Or.inr ⟨by simp [pasteInjectStep, h1, h2], h1.2, h1.1, h2⟩
      · exact Or.inl (by simp [pasteInjectStep, h1, h2])
    · exact Or.inl (by simp [pasteInjectStep, h1])
  · intro h200
    have h2 : ¬ ((wrPtr % 256 + 256 - rdPtr % 256) % 256 < 192) := by omega
    by_cases h1 : queue ≠ [] ∧ rxEmpty = true
    · simp [pasteInjectStep, h1, h2]
    · simp [pasteInjectStep, h1]

theorem paste_injector_flow_control_witness :
    pasteInjectStep [65] true 200 0 = ([65], none) :=
  (paste_injector_flow_control [65] true 200 0).2 (by norm_num)

/-- C2 (counterexample): at an invocation 250 ms after the previous one the
batch count is 500 — the code caps `elapsed` at 50 ms, not at 100 ms — so
the claimed count of 1000 batches is wrong. -/
theorem doTick_250ms_not_1000_batches :
    doTickBatches (1 / 4) = 500 ∧ doTickBatches (1 / 4) ≠ 1000 := by
  have h : doTickBatches (1 / 4) = 500 := by
    unfold doTickBatches doTickElapsedCap doTickDeltaTime
    norm_num
    rfl
  exact ⟨h, by rw [h]; norm_num⟩

/-- C2 (amended): whenever the elapsed time reaches the 50 ms cap (in
particular for an invocation at `t0 + 250ms`), the elapsed time is clamped
to 50 ms and the number of executed cycle batches is exactly
`floor(50ms / 100us) = 500` — corresponding to 50 ms, not to the full
elapsed time. -/
theorem doTick_batches_cap_50ms (e : ℚ) (he : doTickElapsedCap ≤ e) :
    doTickBatches e = 500 := by
  have hpos : ¬ e ≤ 0 := by
    unfold doTickElapsedCap at he
    intro hle
    linarith
  have hcap : (if e > doTickElapsedCap then doTickElapsedCap else e) =
      doTickElapsedCap := by
    split_ifs with h
    · rfl
    · exact le_antisymm (not_lt.mp h) he
  unfold doTickBatches
  rw [if_neg hpos, hcap]
  unfold doTickElapsedCap doTickDeltaTime
  norm_num
  rfl

theorem doTick_batches_cap_50ms_witness : doTickBatches (1 / 4) = 500 :=
  doTick_batches_cap_50ms (1 / 4) (by unfold doTickElapsedCap; norm_num)

/-- C3: after storing a source transition (valid source index 1..5) the
aggregate delivered to the CPU is RAISE exactly when some stored source is
active, pulse-trigger sources contribute one raised observation and revert
to RELEASE; in the concrete scenario raise A, raise B, release A delivers
RAISE (B still active), and then releasing B delivers RELEASE. -/
theorem interrupt_aggregation (irqs : List IrqSignal) (irq : Nat)
    (sig : IrqSignal) (h1 : 1 ≤ irq) (h2 : irq ≤ 5) :
    ((hbc56Interrupt irqs irq sig).2 =
      some (if (irqs.set (irq - 1) sig).any irqActiveSig then .raise
            else .release)) ∧
    ((hbc56Interrupt irqs irq sig).1 =
      (irqs.set (irq - 1) sig).map clearTrigger) ∧
    (∀ A B, 1 ≤ A → A ≤ 5 → 1 ≤ B → B ≤ 5 → A ≠ B →
      (hbc56Interrupt
        (hbc56Interrupt
          (hbc56Interrupt
            (hbc56Interrupt (List.replicate 5 .release) A .raise).1
            B .raise).1
          A .release).1
        B .release).2 = some .release ∧
      (hbc56Interrupt
        (hbc56Interrupt
          (hbc56Interrupt (List.replicate 5 .release) A .raise).1
          B .raise).1
        A .release).2 = some .raise) := by
  have hvalid : ¬ (irq = 0 ∨ irq > 5) := by omega
  refine ⟨?_, ?_, ?_⟩
  · simp only [hbc56Interrupt, hvalid, if_false, irqScan_eq]
  · simp only [hbc56Interrupt, hvalid, if_false, irqScan_eq]
  · intro A B hA1 hA2 hB1 hB2 hAB
    interval_cases A <;> interval_cases B <;>
      first
        | exact absurd rfl hAB
        | exact ⟨by decide, by decide⟩

theorem interrupt_aggregation_witness :
    (hbc56Interrupt
      (hbc56Interrupt
        (hbc56Interrupt
          (hbc56Interrupt (List.replicate 5 .release) 1 .raise).1
          2 .raise).1
        1 .release).1
      2 .release).2 = some .release ∧
    (hbc56Interrupt
      (hbc56Interrupt
        (hbc56Interrupt (List.replicate 5 .release) 1 .raise).1
        2 .raise).1
      1 .release).2 = some .raise :=
  (interrupt_aggregation (List.replicate 5 .release) 1 .raise
    (by norm_num) (by norm_num)).2.2 1 2
    (by norm_num) (by norm_num) (by norm_num) (by norm_num) (by norm_num)

/-! ## 65C51 ACIA device (acia_device.c)

Register offsets 0..3 from the base address: data, status, command, control.
Status bits: OVRN = 0x04, RDRF = 0x08, TDRE = 0x10, IRQ = 0x80.
Command bit: RX_IRQ disable = 0x02.  The receive buffer is a 256-byte
circular buffer with head/tail indices kept in 0..255 by masking; the
terminal output buffer is modelled as the list of its first `termLen` bytes.
All uint8 bitmask operations are written with their 8-bit complements
(`& ~0x04` = `&&& 0xFB`, `& ~0x08` = `&&& 0xF7`, `& ~0x80` = `&&& 0x7F`). -/

def ACIA_RX_BUF_SIZE : Nat := 256

def ACIA_TERM_BUF_SIZE : Nat := 65536

def ACIA_CONTROL_REG : Nat := 3

def ACIA_STATUS_OVRN : Nat := 0x04

def ACIA_STATUS_RDRF : Nat := 0x08

def ACIA_STATUS_TDRE : Nat := 0x10

def ACIA_STATUS_IRQ : Nat := 0x80

def ACIA_CMD_RX_IRQ : Nat := 0x02

structure AciaDevice where
  baseAddr : Nat
  irq : Nat
  commandReg : Nat
  controlReg : Nat
  statusReg : Nat
  rxBuffer : List Nat
  rxHead : Nat
  rxTail : Nat
  termBuffer : List Nat
  termScrollToBottom : Bool
  cursorX : Int
deriving DecidableEq, Repr

/-- `(rxHead - rxTail) & ACIA_RX_BUF_MASK`: for head/tail in 0..255 the
two's-complement masked difference equals `(head + 256 - tail) % 256`. -/
def rxBufCount (a : AciaDevice) : Nat :=
  (a.rxHead + ACIA_RX_BUF_SIZE - a.rxTail) % ACIA_RX_BUF_SIZE

def rxBufPush (a : AciaDevice) (byte : Nat) : AciaDevice :=
  { a with
    rxBuffer := a.rxBuffer.set a.rxHead byte,
    rxHead := (a.rxHead + 1) % ACIA_RX_BUF_SIZE }

def rxBufPop (a : AciaDevice) : Nat × AciaDevice :=
  (a.rxBuffer.getD a.rxTail 0,
    { a with rxTail := (a.rxTail + 1) % ACIA_RX_BUF_SIZE })

/-- `updateIrq`: the receive interrupt is active when RDRF is set and the
command register's RX-IRQ-disable bit is clear; sets or clears the status
IRQ bit accordingly and returns the signal sent to `hbc56Interrupt`. -/
def updateIrq (a : AciaDevice) : AciaDevice × IrqSignal :=
  if a.statusReg &&& ACIA_STATUS_RDRF ≠ 0 ∧
      a.commandReg &&& ACIA_CMD_RX_IRQ = 0 then
    ({ a with statusReg := a.statusReg ||| ACIA_STATUS_IRQ }, .raise)
  else
    ({ a with statusReg := a.statusReg &&& 0x7F }, .release)

/-- `termPutChar`: the value is received as a (signed) `char`, so the
printable test `c >= 0x20` holds exactly for byte values in 0x20..0x7F;
0x7F itself is caught by the backspace/delete case first. -/
def termPutChar (a : AciaDevice) (c : Nat) : AciaDevice :=
  let a1 :=
    if c = 13 then
      { a with
        termBuffer :=
          if a.termBuffer.length < ACIA_TERM_BUF_SIZE - 1 then
            a.termBuffer ++ [10]
          else a.termBuffer,
        cursorX := 0 }
    else if c = 10 then
      if a.termBuffer.getLast? = some 10 then a
      else
        { a with
          termBuffer :=
            if a.termBuffer.length < ACIA_TERM_BUF_SIZE - 1 then
              a.termBuffer ++ [10]
            else a.termBuffer,
          cursorX := 0 }
    else if c = 8 ∨ c = 127 then
      if a.termBuffer ≠ [] ∧ a.termBuffer.getLast? ≠ some 10 then
        { a with termBuffer := a.termBuffer.dropLast, cursorX := a.cursorX - 1 }
      else a
    else if (32 ≤ c ∧ c < 128) ∨ c = 9 then
      if a.termBuffer.length < ACIA_TERM_BUF_SIZE - 1 then
        { a with termBuffer := a.termBuffer ++ [c], cursorX := a.cursorX + 1 }
      else a
    else a
  let a2 := { a1 with termScrollToBottom := true }
  if ACIA_TERM_BUF_SIZE - 256 < a2.termBuffer.length then
    { a2 with
      termBuffer := a2.termBuffer.drop (a2.termBuffer.length / 2) }
  else a2

/-- Feeding a byte sequence to the terminal output path (successive data
register writes). -/
def termFeed (a : AciaDevice) (cs : List Nat) : AciaDevice :=
  cs.foldl termPutChar a

/-- `createAciaDevice`: zero-initialized state with TDRE set. -/
def createAciaDevice (baseAddr irq : Nat) : AciaDevice :=
  { baseAddr := baseAddr
    irq := irq
    commandReg := 0
    controlReg := 0
    statusReg := ACIA_STATUS_TDRE
    rxBuffer := List.replicate ACIA_RX_BUF_SIZE 0
    rxHead := 0
    rxTail := 0
    termBuffer := []
    termScrollToBottom := false
    cursorX := 0 }

/-- `resetAciaDevice` (the RELEASE it sends to `hbc56Interrupt` is handled
by the aggregator model). -/
def resetAciaDevice (a : AciaDevice) : AciaDevice :=
  { a with
    commandReg := 0
    controlReg := 0
    statusReg := ACIA_STATUS_TDRE
    rxHead := 0
    rxTail := 0 }

/-- `readAciaDevice`: returns `none` when the address is outside
[base, base+3] (readFn returns 0), otherwise the value stored into `*val`
and the updated device.  Debug reads skip the `updateIrq` recomputation and
the IRQ-bit clearing on status reads, but nothing else. -/
def readAciaDevice (a : AciaDevice) (addr : Nat) (dbg : Bool) :
    Option (Nat × AciaDevice) :=
  if addr < a.baseAddr ∨ a.baseAddr + ACIA_CONTROL_REG < addr then none
  else
    match addr - a.baseAddr with
    | 0 =>
      if 0 < rxBufCount a then
        let p := rxBufPop a
        let a1 :=
          if rxBufCount p.2 = 0 then
            { p.2 with statusReg := p.2.statusReg &&& 0xF7 }
          else p.2
        let a2 := if dbg then a1 else (updateIrq a1).1
        some (p.1, a2)
      else
        some (0, a)
    | 1 =>
      some (a.statusReg,
        if dbg then a else { a with statusReg := a.statusReg &&& 0x7F })
    | 2 => some (a.commandReg, a)
    | 3 => some (a.controlReg, a)
    | _ => some (0, a)

/-- `writeAciaDevice`: `none` when the address is outside [base, base+3]. -/
def writeAciaDevice (a : AciaDevice) (addr val : Nat) : Option AciaDevice :=
  if addr < a.baseAddr ∨ a.baseAddr + ACIA_CONTROL_REG < addr then none
  else
    match addr - a.baseAddr with
    | 0 => some (termPutChar a val)
    | 1 =>
      some { a with
        commandReg := a.commandReg &&& 0xE0,
        statusReg := a.statusReg &&& 0xFB }
    | 2 => some (updateIrq { a with commandReg := val }).1
    | 3 => some { a with controlReg := val }
    | _ => some a

/-- `tickAciaDevice`: latch RDRF when data is waiting and it is not yet
set. -/
def tickAciaDevice (a : AciaDevice) : AciaDevice :=
  if 0 < rxBufCount a ∧ a.statusReg &&& ACIA_STATUS_RDRF = 0 then
    (updateIrq { a with statusReg := a.statusReg ||| ACIA_STATUS_RDRF }).1
  else a

/-- `aciaDeviceReceiveByte`: push the byte, and if RDRF was clear set it and
recompute the interrupt synchronously. -/
def aciaDeviceReceiveByte (a : AciaDevice) (byte : Nat) : AciaDevice :=
  let a1 := rxBufPush a byte
  if a1.statusReg &&& ACIA_STATUS_RDRF = 0 then
    (updateIrq { a1 with statusReg := a1.statusReg ||| ACIA_STATUS_RDRF }).1
  else a1

def aciaDeviceRxBufEmpty (a : AciaDevice) : Bool :=
  rxBufCount a = 0

/-! ## ACIA lemmas -/

theorem termPutChar_cr (a : AciaDevice) (h : a.termBuffer.length ≤ 65279) :
    termPutChar a 13 =
      { a with termBuffer := a.termBuffer ++ [10], cursorX := 0,
               termScrollToBottom := true } := by
  have h1 : a.termBuffer.length < ACIA_TERM_BUF_SIZE - 1 := by
    unfold ACIA_TERM_BUF_SIZE
    omega
  have h2 : ¬ (ACIA_TERM_BUF_SIZE - 256 < a.termBuffer.length + 1) := by
    unfold ACIA_TERM_BUF_SIZE
    omega
  simp [termPutChar, h1, h2]

theorem termPutChar_lf_append (a : AciaDevice)
    (hlast : a.termBuffer.getLast? ≠ some 10)
    (h : a.termBuffer.length ≤ 65279) :
    termPutChar a 10 =
      { a with termBuffer := a.termBuffer ++ [10], cursorX := 0,
               termScrollToBottom := true } := by
  have h1 : a.termBuffer.length < ACIA_TERM_BUF_SIZE - 1 := by
    unfold ACIA_TERM_BUF_SIZE
    omega
  have h2 : ¬ (ACIA_TERM_BUF_SIZE - 256 < a.termBuffer.length + 1) := by
    unfold ACIA_TERM_BUF_SIZE
    omega
  simp [termPutChar, hlast, h1, h2]

theorem termPutChar_lf_skip (a : AciaDevice)
    (hlast : a.termBuffer.getLast? = some 10)
    (h : a.termBuffer.length ≤ 65280) :
    termPutChar a 10 = { a with termScrollToBottom := true } := by
  have h2 : ¬ (ACIA_TERM_BUF_SIZE - 256 < a.termBuffer.length) := by
    unfold ACIA_TERM_BUF_SIZE
    omega
  simp [termPutChar, hlast, h2]

theorem updateIrq_rxTail (x : AciaDevice) :
    (updateIrq x).1.rxTail = x.rxTail := by
  unfold updateIrq
  split_ifs <;> rfl

theorem updateIrq_rxHead (x : AciaDevice) :
    (updateIrq x).1.rxHead = x.rxHead := by
  unfold updateIrq
  split_ifs <;> rfl

theorem updateIrq_rxBuffer (x : AciaDevice) :
    (updateIrq x).1.rxBuffer = x.rxBuffer := by
  unfold updateIrq
  split_ifs <;> rfl

theorem rxBufCount_pop (a : AciaDevice) (h : 0 < rxBufCount a)
    (hh : a.rxHead < 256) (ht : a.rxTail < 256) :
    rxBufCount (rxBufPop a).2 = rxBufCount a - 1 := by
  unfold rxBufCount rxBufPop ACIA_RX_BUF_SIZE at *
  simp only at *
  omega

/-- Reading the data register while the receive buffer is empty: the idle
value 0 is returned and the device is untouched (for debug and non-debug
reads alike). -/
theorem readAcia_data_empty_aux (a : AciaDevice) (dbg : Bool)
    (h : rxBufCount a = 0) :
    readAciaDevice a a.baseAddr dbg = some (0, a) := by
  have hb : ¬ (a.baseAddr < a.baseAddr ∨
      a.baseAddr + ACIA_CONTROL_REG < a.baseAddr) := by
    unfold ACIA_CONTROL_REG
    omega
  simp [readAciaDevice, hb, h]

/-- C5: from any terminal state whose last stored character is not a newline
and whose length is below the discard threshold, feeding CR,LF appends
exactly one newline, feeding LF alone appends exactly one newline, and
feeding CR,CR appends exactly two newlines; a carriage return always
appends a newline and resets the cursor column to 0, and a line feed
appends a newline only if the preceding stored character is not already a
newline. -/
theorem termPutChar_line_endings (a : AciaDevice)
    (hlast : a.termBuffer.getLast? ≠ some 10)
    (hlen : a.termBuffer.length < 65279) :
    (termFeed a [13, 10]).termBuffer = a.termBuffer ++ [10] ∧
    (termFeed a [10]).termBuffer = a.termBuffer ++ [10] ∧
    (termFeed a [13, 13]).termBuffer = a.termBuffer ++ [10, 10] ∧
    (∀ b : AciaDevice, b.termBuffer.length < 65279 →
      (termPutChar b 13).termBuffer = b.termBuffer ++ [10] ∧
      (termPutChar b 13).cursorX = 0) ∧
    (∀ b : AciaDevice, b.termBuffer.getLast? = some 10 →
      b.termBuffer.length < 65279 →
      (termPutChar b 10).termBuffer = b.termBuffer) := by
  have hcr := termPutChar_cr a (Nat.le_of_lt hlen)
  refine ⟨?_, ?_, ?_, ?_, ?_⟩
  · show (termPutChar (termPutChar a 13) 10).termBuffer = _
    rw [hcr]
    rw [termPutChar_lf_skip _ (by simp) (by simp; omega)]
  · show (termPutChar a 10).termBuffer = _
    rw [termPutChar_lf_append a hlast (Nat.le_of_lt hlen)]
  · show (termPutChar (termPutChar a 13) 13).termBuffer = _
    rw [hcr]
    rw [termPutChar_cr _ (by simp; omega)]
    simp
  · intro b hb
    rw [termPutChar_cr b (Nat.le_of_lt hb)]
    exact ⟨rfl, rfl⟩
  · intro b hb hblen
    rw [termPutChar_lf_skip b hb (by omega)]

def termWitnessState : AciaDevice :=
  { createAciaDevice 0x8400 2 with termBuffer := [65] }

theorem termPutChar_line_endings_witness :
    (termFeed termWitnessState [13, 10]).termBuffer = [65] ++ [10] ∧
    (termFeed termWitnessState [10]).termBuffer = [65] ++ [10] ∧
    (termFeed termWitnessState [13, 13]).termBuffer = [65] ++ [10, 10] := by
  have h := termPutChar_line_endings termWitnessState (by decide) (by decide)
  exact ⟨h.1, h.2.1, h.2.2.1⟩

/-- C6: every non-debug read of the ACIA data register with an empty receive
buffer returns the idle value 0 and leaves the controller unchanged — the
tail index does not advance and the occupancy stays 0. -/
theorem readAcia_data_empty_idle (a : AciaDevice) (h : rxBufCount a = 0) :
    readAciaDevice a a.baseAddr false = some (0, a) ∧
    (readAciaDevice a a.baseAddr false).map (fun p => p.2.rxTail) =
      some a.rxTail ∧
    (readAciaDevice a a.baseAddr false).map (fun p => rxBufCount p.2) =
      some 0 := by
  have hm := readAcia_data_empty_aux a false h
  exact ⟨hm, by rw [hm]; rfl, by rw [hm]; simp [h]⟩

theorem readAcia_data_empty_idle_witness :
    readAciaDevice (createAciaDevice 0x8400 2) 0x8400 false =
      some (0, createAciaDevice 0x8400 2) :=
  (readAcia_data_empty_idle (createAciaDevice 0x8400 2) (by decide)).1

/-- C8: writing the status register (base+1, the programmed reset) clears
the lower five bits of the command register and the overrun-error status
bit, and leaves the receive buffer (head, tail, contents), the control
register and the terminal output buffer unchanged. -/
theorem writeAcia_programmed_reset (a : AciaDevice) (v : Nat) :
    writeAciaDevice a (a.baseAddr + 1) v =
      some { a with commandReg := a.commandReg &&& 0xE0,
                    statusReg := a.statusReg &&& 0xFB } ∧
    (a.statusReg &&& 0xFB) &&& ACIA_STATUS_OVRN = 0 ∧
    ({ a with commandReg := a.commandReg &&& 0xE0,
              statusReg := a.statusReg &&& 0xFB } : AciaDevice).rxHead =
      a.rxHead ∧
    ({ a with commandReg := a.commandReg &&& 0xE0,
              statusReg := a.statusReg &&& 0xFB } : AciaDevice).rxTail =
      a.rxTail ∧
    ({ a with commandReg := a.commandReg &&& 0xE0,
              statusReg := a.statusReg &&& 0xFB } : AciaDevice).rxBuffer =
      a.rxBuffer ∧
    ({ a with commandReg := a.commandReg &&& 0xE0,
              statusReg := a.statusReg &&& 0xFB } : AciaDevice).controlReg =
      a.controlReg ∧
    ({ a with commandReg := a.commandReg &&& 0xE0,
              statusReg := a.statusReg &&& 0xFB } : AciaDevice).termBuffer =
      a.termBuffer := by
  have hb : ¬ (a.baseAddr + 1 < a.baseAddr ∨
      a.baseAddr + ACIA_CONTROL_REG < a.baseAddr + 1) := by
    unfold ACIA_CONTROL_REG
    omega
  refine ⟨?_, ?_, rfl, rfl, rfl, rfl, rfl⟩
  · simp [writeAciaDevice, ACIA_CONTROL_REG, Nat.add_sub_cancel_left]
  · have h4 : (0xFB : Nat) &&& ACIA_STATUS_OVRN = 0 := rfl
    rw [Nat.and_assoc, h4, Nat.and_zero]

/-- C9: a debug-mode read of the data register with a non-empty receive
buffer still pops the oldest byte: the tail advances, the RDRF status bit
is cleared exactly when the buffer becomes empty, and only the `updateIrq`
recomputation is suppressed; a non-debug read pops the same byte with the
same tail advance.  Debug reads of the data register are not side-effect
free. -/
theorem readAcia_debug_read_pops (a : AciaDevice) (h : 0 < rxBufCount a)
    (hh : a.rxHead < 256) (ht : a.rxTail < 256) :
    readAciaDevice a a.baseAddr true =
      some (a.rxBuffer.getD a.rxTail 0,
        if rxBufCount a = 1 then
          { a with rxTail := (a.rxTail + 1) % 256,
                   statusReg := a.statusReg &&& 0xF7 }
        else { a with rxTail := (a.rxTail + 1) % 256 }) ∧
    (readAciaDevice a a.baseAddr false).map (fun p => p.2.rxTail) =
      some ((a.rxTail + 1) % 256) ∧
    (readAciaDevice a a.baseAddr false).map (fun p => p.2.rxBuffer) =
      some a.rxBuffer ∧
    (readAciaDevice a a.baseAddr false).map (fun p => p.1) =
      some (a.rxBuffer.getD a.rxTail 0) := by
  have hb : ¬ (a.baseAddr < a.baseAddr ∨
      a.baseAddr + ACIA_CONTROL_REG < a.baseAddr) := by
    unfold ACIA_CONTROL_REG
    omega
  have hpop : rxBufPop a =
      (a.rxBuffer.getD a.rxTail 0,
        { a with rxTail := (a.rxTail + 1) % 256 }) := rfl
  have hone2 : (rxBufCount { a with rxTail := (a.rxTail + 1) % 256 } = 0) ↔
      (rxBufCount a = 1) := by
    unfold rxBufCount ACIA_RX_BUF_SIZE at *
    simp only at *
    omega
  refine ⟨?_, ?_, ?_, ?_⟩ <;>
    by_cases h1 : rxBufCount a = 1 <;>
      simp [readAciaDevice, hb, h, hpop, hone2, h1,
        updateIrq_rxTail, updateIrq_rxBuffer]

/-- C10: the occupancy reported by `rxBufCount` is `(head - tail) mod 256`,
hence at most 255; pushing when the occupancy is 255 wraps the head onto
the tail, the reported occupancy becomes 0, and the buffer then reads as
empty through the pop path (a data-register read returns the idle value
without popping), silently losing the buffered contents. -/
theorem rxBufCount_wrap (a : AciaDevice) (b : Nat)
    (hh : a.rxHead < 256) (ht : a.rxTail < 256) :
    rxBufCount a ≤ 255 ∧
    (rxBufCount a = 255 →
      rxBufCount (rxBufPush a b) = 0 ∧
      readAciaDevice (rxBufPush a b) a.baseAddr false =
        some (0, rxBufPush a b)) := by
  constructor
  · unfold rxBufCount ACIA_RX_BUF_SIZE
    omega
  · intro h255
    have hzero : rxBufCount (rxBufPush a b) = 0 := by
      unfold rxBufCount rxBufPush ACIA_RX_BUF_SIZE at *
      simp only at *
      omega
    have hbase : (rxBufPush a b).baseAddr = a.baseAddr := rfl
    refine ⟨hzero, ?_⟩
    rw [← hbase]
    exact readAcia_data_empty_aux (rxBufPush a b) false hzero

def debugReadWitnessState : AciaDevice :=
  { createAciaDevice 0x8400 2 with
    rxBuffer := (List.replicate 256 0).set 0 65,
    rxHead := 1,
    statusReg := 0x18 }

theorem readAcia_debug_read_pops_witness :
    readAciaDevice debugReadWitnessState debugReadWitnessState.baseAddr true =
      some (65, { debugReadWitnessState with rxTail := 1, statusReg := 16 }) :=
  (readAcia_debug_read_pops debugReadWitnessState
    (by decide) (by decide) (by decide)).1.trans (by decide)

def wrapWitnessState : AciaDevice :=
  { createAciaDevice 0x8400 2 with rxHead := 255, rxTail := 0 }

theorem rxBufCount_wrap_witness :
    rxBufCount (rxBufPush wrapWitnessState 7) = 0 ∧
    readAciaDevice (rxBufPush wrapWitnessState 7)
        wrapWitnessState.baseAddr false =
      some (0, rxBufPush wrapWitnessState 7) :=
  (rxBufCount_wrap wrapWitnessState 7 (by decide) (by decide)).2 (by decide)

/-! ## ROM loading (db6502emu.cpp: hbc56LoadRom)

The emulator state recorded by the module, restricted to the fields
`hbc56LoadRom` touches: the device-chain length, the ROM device's contents
(`none` before any ROM device is created), the `programLoaded` flag and the
recorded current-ROM-file name.  The CPU break and the `hbc56Reset` call on
the success path act on device-private state outside this record. -/

def HBC56_ROM_SIZE : Nat := 32768

structure EmuState where
  deviceCount : Nat
  romContents : Option (List Nat)
  programLoaded : Bool
  currentRomFile : String
deriving DecidableEq, Repr

/-- `hbc56LoadRom`: clears `currentRomFile` first, then validates the size;
a wrong-size image produces a user-visible error box and status 0; on
success the ROM device is created (appended to the chain) or its contents
replaced, `programLoaded` is set and the machine is reset. -/
def hbc56LoadRom (s : EmuState) (romData : List Nat) : Nat × EmuState :=
  let s1 := { s with currentRomFile := "" }
  if romData.length ≠ HBC56_ROM_SIZE then
    (0, s1)
  else
    let s2 :=
      match s1.romContents with
      | none =>
        { s1 with
          romContents := some romData,
          deviceCount := s1.deviceCount + 1 }
      | some _ => { s1 with romContents := some romData }
    (1, { s2 with programLoaded := true })

def loadRomPriorState : EmuState :=
  { deviceCount := 9
    romContents := some [1, 2, 3]
    programLoaded := true
    currentRomFile := "eater.bin" }

/-- C7 (counterexample): a wrong-size load is rejected with status 0, but
the emulator state is NOT left entirely unchanged — `currentRomFile` is
cleared unconditionally before the size check, so the recorded ROM-file
name changes. -/
theorem hbc56LoadRom_wrong_size_counterexample :
    (hbc56LoadRom loadRomPriorState (List.replicate 100 0)).1 = 0 ∧
    (hbc56LoadRom loadRomPriorState (List.replicate 100 0)).2 ≠
      loadRomPriorState ∧
    (hbc56LoadRom loadRomPriorState (List.replicate 100 0)).2.currentRomFile ≠
      loadRomPriorState.currentRomFile := by
  refine ⟨rfl, ?_, ?_⟩ <;> decide

/-- C7 (amended): a load with a data size different from the 32KB firmware
size reports failure (returns 0), and the device chain, the ROM device's
contents and the `programLoaded` flag are unchanged; the only state change
is that the recorded current-ROM-file name is unconditionally cleared. -/
theorem hbc56LoadRom_wrong_size (s : EmuState) (data : List Nat)
    (h : data.length ≠ HBC56_ROM_SIZE) :
    hbc56LoadRom s data = (0, { s with currentRomFile := "" }) ∧
    (hbc56LoadRom s data).2.deviceCount = s.deviceCount ∧
    (hbc56LoadRom s data).2.romContents = s.romContents ∧
    (hbc56LoadRom s data).2.programLoaded = s.programLoaded ∧
    (hbc56LoadRom s data).2.currentRomFile = "" := by
  unfold hbc56LoadRom
  simp [h]

theorem hbc56LoadRom_wrong_size_witness :
    hbc56LoadRom loadRomPriorState (List.replicate 100 0) =
      (0, { loadRomPriorState with currentRomFile := "" }) :=
  (hbc56LoadRom_wrong_size loadRomPriorState (List.replicate 100 0)
    (by decide)).1

end DB6502
